import Mathlib

/-!
Shallow embedding of the ReviewThor webhook / review pipeline (the TypeScript
sources under `src/`), together with theorems settling the specification's
claims against the embedded code.

Conventions used throughout:
- JS `string | undefined` fields become `Option String`; JS truthiness of such
  a field (`undefined` and `""` are falsy) is `strTruthy`.
- JS `number | undefined` fields become `Option Int`; truthiness (`undefined`
  and `0` are falsy) is `intTruthy`.
- Fallible code returns `Except String α`, the `String` being the thrown
  `Error`'s message.
- External collaborators (the crypto HMAC primitive, the GitHub REST API, the
  review service, the JSON parser, the JS regular-expression engine) are
  passed in as explicit function/value parameters, mirroring the spec's
  treatment of them as black-box contracts.
-/

namespace ReviewThor

/-- JS truthiness of an optional string field: `undefined` and `""` are falsy. -/
def strTruthy : Option String → Bool
  | none => false
  | some s => s ≠ ""

/-- JS truthiness of an optional numeric field: `undefined` and `0` are falsy. -/
def intTruthy : Option Int → Bool
  | none => false
  | some n => n ≠ 0

/-! ## Review engine (src/src/ai/engine.ts, src/src/ai/prompt-manager.ts) -/

/-- The three severity levels of `Issue.severity` (engine.ts). -/
inductive Severity
  | error
  | warning
  | info
deriving DecidableEq, Repr

/-- The `severityOrder` table of `AIReviewEngine.generateComments`
(engine.ts line 80): `{ error: 0, warning: 1, info: 2 }`. -/
def severityOrder : Severity → Nat
  | .error => 0
  | .warning => 1
  | .info => 2

/-- `Issue` (engine.ts): one validated finding. -/
structure Issue where
  file : String
  line : Int
  severity : Severity
  message : String
  category : String
  suggestion : Option String
deriving DecidableEq, Repr

/-- `Comment` (engine.ts / github client): one outbound review comment. -/
structure Comment where
  path : String
  line : Int
  body : String
deriving DecidableEq, Repr

/-- `ReviewAnalysis` (engine.ts), restricted to the fields the embedded
operations read (`stats` is carried opaquely by the code and never read). -/
structure ReviewAnalysis where
  issues : List Issue
  summary : String
deriving DecidableEq, Repr

/-- The `icons` table of `PromptManager.formatComment` (prompt-manager.ts). -/
def severityIcon : Severity → String
  | .error => "❌"
  | .warning => "⚠️"
  | .info => "ℹ️"

/-- The `categoryLabels` lookup of `PromptManager.formatComment`
(prompt-manager.ts), with the `|| issue.category` fallback. -/
def categoryLabel (category : String) : String :=
  if category = "bug" then "Bug"
  else if category = "security" then "Security"
  else if category = "performance" then "Performance"
  else if category = "code-quality" then "Code Quality"
  else if category = "type-safety" then "Type Safety"
  else if category = "documentation" then "Documentation"
  else category

/-- `PromptManager.formatComment` (prompt-manager.ts lines 24–50). -/
def formatComment (issue : Issue) : String :=
  let comment :=
    severityIcon issue.severity ++ " **" ++ categoryLabel issue.category ++ "**: " ++
      issue.message
  match issue.suggestion with
  | some s =>
    if s ≠ "" then
      comment ++ "\n\n**Suggestion:**\n```javascript\n" ++ s ++ "\n```"
    else comment
  | none => comment

/-- Initial value of the `AIReviewEngine.minimumSeverity` field
(engine.ts line 41): `'info'`. -/
def defaultMinimumSeverity : Severity := .info

/-- The comment built from one admitted issue inside
`AIReviewEngine.generateComments` (engine.ts lines 85–89). -/
def mkComment (issue : Issue) : Comment :=
  { path := issue.file, line := issue.line, body := formatComment issue }

/-- `AIReviewEngine.generateComments` (engine.ts lines 79–90), with the
engine's `minimumSeverity` field passed explicitly. -/
def generateComments (minimumSeverity : Severity) (analysis : ReviewAnalysis) :
    List Comment :=
  let minSeverityValue := severityOrder minimumSeverity
  (analysis.issues.filter fun issue =>
    severityOrder issue.severity ≤ minSeverityValue).map mkComment

/-- Concrete issue used by the C3 witness. -/
def sampleIssue : Issue :=
  { file := "src/index.js", line := 10, severity := .error,
    message := "Undefined variable", category := "bug", suggestion := none }

/-- Concrete analysis used by the C3 witness. -/
def sampleAnalysis : ReviewAnalysis :=
  { issues := [sampleIssue], summary := "one error" }

/-! ## Review-service response validation (src/src/ai/engine.ts) -/

/-- One finding as it appears in the parsed review-service response, before
validation: every field may be absent (engine.ts treats the parsed value as
untyped). `line` is numeric, the other four are strings. -/
structure RawIssue where
  file : Option String
  line : Option Int
  severity : Option String
  message : Option String
  category : Option String
deriving DecidableEq, Repr

/-- The parsed review-service response before validation. `issues = none`
models a value for which `Array.isArray` fails; `summary = none` models an
absent or non-string summary; `stats = false` models an absent or non-object
stats field. -/
structure RawAnalysis where
  issues : Option (List RawIssue)
  summary : Option String
  stats : Bool
deriving DecidableEq, Repr

/-- The accepted severity strings (engine.ts line 200). -/
def validSeverities : List String := ["error", "warning", "info"]

/-- The five-required-fields check on one finding (engine.ts line 196):
`!issue.file || !issue.line || !issue.severity || !issue.message ||
!issue.category`, negated. -/
def issueHasRequiredFields (i : RawIssue) : Bool :=
  strTruthy i.file && intTruthy i.line && strTruthy i.severity &&
    strTruthy i.message && strTruthy i.category

/-- The per-issue loop of `AIReviewEngine.validateAnalysis`
(engine.ts lines 195–203): throws at the first invalid finding. -/
def validateIssues : List RawIssue → Except String Unit
  | [] => .ok ()
  | i :: rest =>
    if ¬ issueHasRequiredFields i then
      .error "Each issue must have file, line, severity, message, and category"
    else if ¬ (i.severity.getD "") ∈ validSeverities then
      .error "Issue severity must be error, warning, or info"
    else validateIssues rest

/-- `AIReviewEngine.validateAnalysis` (engine.ts lines 177–204). The argument
is `none` when the parsed value is `null` or not an object (check (2)). -/
def validateAnalysis (a : Option RawAnalysis) : Except String Unit :=
  match a with
  | none => .error "Analysis must be an object"
  | some analysis =>
    match analysis.issues with
    | none => .error "Analysis must contain an issues array"
    | some issues =>
      if ¬ strTruthy analysis.summary then
        .error "Analysis must contain a summary string"
      else if ¬ analysis.stats then
        .error "Analysis must contain stats object"
      else validateIssues issues

/-- The parse-and-validate pipeline of `AIReviewEngine.analyzeCode`
(engine.ts lines 54–72). `createMessageResult` is the outcome of the external
`anthropicClient.createMessage` call (its failure propagates: the `await` sits
before the `try`); `parse` is the external `JSON.parse`, returning
`.error msg` when it throws (`msg = none` when the thrown value carries no
message — normalized to `"Unknown error"`), and `.ok none` when it yields
`null` or a non-object. Any error thrown inside the `try` is wrapped as
`Invalid AI response format: …`. -/
def analyzeCode (createMessageResult : Except String String)
    (parse : String → Except (Option String) (Option RawAnalysis)) :
    Except String RawAnalysis :=
  match createMessageResult with
  | .error e => .error e
  | .ok content =>
    match parse content with
    | .error msg => .error ("Invalid AI response format: " ++ msg.getD "Unknown error")
    | .ok parsed =>
      match validateAnalysis parsed with
      | .error m => .error ("Invalid AI response format: " ++ m)
      | .ok _ =>
        match parsed with
        | some analysis => .ok analysis
        | none => .error ("Invalid AI response format: " ++ "Analysis must be an object")

/-- Whether one raw finding violates the per-issue checks of
`validateAnalysis`: a missing required field, or a severity outside the three
accepted values. -/
def badIssue (i : RawIssue) : Bool :=
  !issueHasRequiredFields i || !((i.severity.getD "") ∈ validSeverities)

/-- Concrete raw analysis used by the C8 witness: structurally valid, but its
second finding lacks a `category`. -/
def sampleRawAnalysis : RawAnalysis :=
  { issues := some
      [ { file := some "a.js", line := some 3, severity := some "warning",
          message := some "unused import", category := some "code-quality" },
        { file := some "b.js", line := some 7, severity := some "error",
          message := some "null deref", category := none } ],
    summary := some "two findings",
    stats := true }

/-! ## Context builder (src/src/ai/context-builder.ts)

String lengths are character counts; the JS code counts UTF-16 code units,
which coincides on the ASCII payloads considered here. The token budget
`MAX_TOKENS` is a class constant in the source; the packing functions below
take it as the explicit parameter `maxTokens` (the spec's `pack(files, prMeta,
budgetTokens)` contract), instantiated at `MAX_TOKENS` by the class. -/

/-- `FileContext` (context-builder.ts). -/
structure FileContext where
  path : String
  content : String
  diff : String
  language : String
deriving DecidableEq, Repr

/-- `PRContext` (context-builder.ts). -/
structure PRContext where
  title : String
  description : String
  author : String
  targetBranch : String
  sourceBranch : String
deriving DecidableEq, Repr

/-- `FullContext` (context-builder.ts), restricted to the fields
`optimizeForTokenLimit` reads (`relatedFiles` and `totalTokens` are never
read by it). -/
structure FullContext where
  files : List FileContext
  pr : PRContext
deriving DecidableEq, Repr

/-- `OptimizedContext` (context-builder.ts). -/
structure OptimizedContext where
  files : List FileContext
  pr : PRContext
  truncated : Bool
  tokenCount : Nat
deriving DecidableEq, Repr

/-- `AVG_CHARS_PER_TOKEN` (context-builder.ts line 38). -/
def AVG_CHARS_PER_TOKEN : Nat := 4

/-- `MAX_TOKENS` (context-builder.ts line 37). -/
def MAX_TOKENS : Nat := 150000

/-- `ContextBuilder.estimateFileChars` (context-builder.ts lines 226–228). -/
def estimateFileChars (file : FileContext) : Nat :=
  file.path.length + file.content.length + file.diff.length + 50

/-- `ContextBuilder.estimateFileTokens` (context-builder.ts lines 222–224):
`Math.ceil(chars / 4)`. -/
def estimateFileTokens (file : FileContext) : Nat :=
  (estimateFileChars file + (AVG_CHARS_PER_TOKEN - 1)) / AVG_CHARS_PER_TOKEN

/-- `ContextBuilder.estimateTokens` (context-builder.ts lines 206–220). -/
def estimateTokens (files : List FileContext) (pr : PRContext) : Nat :=
  let totalChars := pr.title.length + pr.description.length + 100 +
    (files.map estimateFileChars).sum
  (totalChars + (AVG_CHARS_PER_TOKEN - 1)) / AVG_CHARS_PER_TOKEN

/-- The marker appended by `truncateFile` when the diff is clipped. -/
def truncationMarker : String := "\n... (truncated)"

/-- `ContextBuilder.truncateFile` (context-builder.ts lines 230–249). The
arithmetic is over `Int` because `maxTokens - currentTokens` can be negative
in the source; JS `substring(0, n)` clamps a negative `n` to `0`, modeled by
`Int.toNat`. -/
def truncateFile (file : FileContext) (maxTokens : Int) : FileContext :=
  let maxChars : Int := maxTokens * (AVG_CHARS_PER_TOKEN : Int)
  let pathAndMetadata : Int := (file.path.length : Int) + 50
  let availableChars : Int := maxChars - pathAndMetadata
  if (file.diff.length : Int) ≤ availableChars then
    { file with content := "" }
  else
    { file with
      content := "",
      diff := file.diff.take availableChars.toNat ++ truncationMarker }

/-- The `for (const file of context.files)` loop of
`ContextBuilder.optimizeForTokenLimit` (context-builder.ts lines 111–124):
keeps whole files while they fit, truncates the first overflowing file in
place and stops there. -/
def optimizeLoop (maxTokens currentTokens : Nat) :
    List FileContext → List FileContext
  | [] => []
  | file :: rest =>
    let fileTokens := estimateFileTokens file
    if currentTokens + fileTokens ≤ maxTokens then
      file :: optimizeLoop maxTokens (currentTokens + fileTokens) rest
    else
      [truncateFile file ((maxTokens : Int) - (currentTokens : Int))]

/-- `ContextBuilder.optimizeForTokenLimit` (context-builder.ts lines 95–132). -/
def optimizeForTokenLimit (maxTokens : Nat) (context : FullContext) :
    OptimizedContext :=
  let estimatedTokens := estimateTokens context.files context.pr
  if estimatedTokens ≤ maxTokens then
    { files := context.files, pr := context.pr, truncated := false,
      tokenCount := estimatedTokens }
  else
    { files := optimizeLoop maxTokens (estimateTokens [] context.pr) context.files,
      pr := context.pr, truncated := true, tokenCount := maxTokens }

/-- A PR context with every string empty (baseline of 100 metadata chars,
25 tokens). -/
def emptyPR : PRContext :=
  { title := "", description := "", author := "", targetBranch := "",
    sourceBranch := "" }

/-- Concrete input for the C2 counterexample: no files at all. -/
def emptyFilesContext : FullContext := { files := [], pr := emptyPR }

/-- Concrete file used by the C2 witness. -/
def sampleFile : FileContext :=
  { path := "a.js", content := "0123456789", diff := "abcdef",
    language := "javascript" }

/-- Concrete input for the C2 witness: one file that overflows a budget of
30 tokens. -/
def oneFileContext : FullContext := { files := [sampleFile], pr := emptyPR }

/-! ## GitHub client (`GitHubClient`, src/src/github/client-branch.test.ts
lines 242–385) -/

/-- `BATCH_SIZE` in `GitHubClient.createReview`: the host API's 100-comment
limit per review-submission call. -/
def BATCH_SIZE : Nat := 100

/-- The batch-building loop of `GitHubClient.createReview`:
`for (let i = 0; i < comments.length; i += BATCH_SIZE)
   batches.push(comments.slice(i, i + BATCH_SIZE))`. -/
def makeBatches : List Comment → List (List Comment)
  | [] => []
  | c :: rest =>
    ((c :: rest).take BATCH_SIZE) :: makeBatches ((c :: rest).drop BATCH_SIZE)
termination_by l => l.length
decreasing_by
  simp only [List.length_drop, List.length_cons, BATCH_SIZE]
  omega

/-- The sequential posting loop of `GitHubClient.createReview`:
`for (const batch of batches) { await this.octokit.pulls.createReview(…) }`.
`call` is the external host API, one invocation per issued call. The result
is the list of calls actually issued, in order, with the final outcome: each
batch is sent only after every earlier batch's call completed successfully,
and a failing call aborts the remaining batches (already-issued calls are not
revisited). -/
def runBatches (call : List Comment → Except String Unit) :
    List (List Comment) → List (List Comment) × Except String Unit
  | [] => ([], .ok ())
  | b :: bs =>
    match call b with
    | .ok _ =>
      let r := runBatches call bs
      (b :: r.1, r.2)
    | .error e => ([b], .error e)

/-- `GitHubClient.createReview` (client source lines 353–384): requires an
authenticated client, returns without any call for an empty comment list, and
otherwise issues the batched calls sequentially. -/
def createReview (authenticated : Bool)
    (call : List Comment → Except String Unit) (comments : List Comment) :
    List (List Comment) × Except String Unit :=
  if ¬ authenticated then ([], .error "GitHub client not authenticated")
  else if comments.length = 0 then ([], .ok ())
  else runBatches call (makeBatches comments)

/-- Concrete comment list used by the C4 witness. -/
def sampleComments : List Comment :=
  [ { path := "file.js", line := 1, body := "Comment 1" },
    { path := "file.js", line := 2, body := "Comment 2" } ]

/-- A host API that rejects every call, used by the C4 witness. -/
def failingCall : List Comment → Except String Unit :=
  fun _ => .error "API Error"

/-! ## Webhook handler (src/src/handlers/webhook.ts) -/

/-- Models JS `String.prototype.startsWith` (a prefix test). -/
def jsStartsWith (s p : String) : Bool := s.data.take p.data.length == p.data

/-- Models Node's `crypto.timingSafeEqual` on two equal-length buffers: the
computed value is plain equality (the constant-time execution profile is a
timing property, not a value property). -/
def timingSafeEqual (a b : String) : Bool := a == b

/-- `WebhookHandler.validateSignature` (webhook.ts lines 26–46). `hmacHex`
is the external `crypto.createHmac('sha256', secret).update(payload)
.digest('hex')` primitive, a total function of secret and payload (Node's
HMAC does not throw on string inputs). Buffer lengths are compared as
character counts, which coincides with byte counts on the ASCII
`sha256=`-prefixed hex side. -/
def validateSignature (hmacHex : String → String → String)
    (webhookSecret payload signature : String) : Bool :=
  if signature = "" ∨ jsStartsWith signature "sha256=" = false then false
  else
    let expectedSignature := "sha256=" ++ hmacHex webhookSecret payload
    if signature.length ≠ expectedSignature.length then false
    else timingSafeEqual signature expectedSignature

/-- `payload.repository.owner`. -/
structure RepoOwner where
  login : Option String
deriving DecidableEq, Repr

/-- `payload.repository`. -/
structure RepoInfo where
  name : Option String
  owner : Option RepoOwner
deriving DecidableEq, Repr

/-- `payload.installation`. -/
structure Installation where
  id : Option Int
deriving DecidableEq, Repr

/-- The `pull_request` object of the payload, restricted to the fields the
pipeline reads. -/
structure PullRequestInfo where
  number : Int
  draft : Bool
  body : Option String
deriving DecidableEq, Repr

/-- An inbound webhook payload, restricted to the fields the handler reads.
`review = true` models the presence of a `review` object (an object is
always truthy in JS). -/
structure WebhookPayload where
  installation : Option Installation
  repository : Option RepoInfo
  action : Option String
  pull_request : Option PullRequestInfo
  review : Bool
deriving DecidableEq, Repr

/-- `payload.installation?.id`. -/
def instId (p : WebhookPayload) : Option Int := p.installation.bind (·.id)

/-- `payload.repository?.name`. -/
def repoName (p : WebhookPayload) : Option String := p.repository.bind (·.name)

/-- `payload.repository?.owner?.login`. -/
def ownerLogin (p : WebhookPayload) : Option String :=
  (p.repository.bind (·.owner)).bind (·.login)

/-- The `repository` field of `GitHubEvent` (webhook.ts lines 6–9). -/
structure Repository where
  name : String
  owner : String
deriving DecidableEq, Repr

/-- `GitHubEvent` (webhook.ts lines 3–11); `type` carries one of the four
strings of the source's union type, built by `determineEventType`. -/
structure GitHubEvent where
  type : String
  payload : WebhookPayload
  repository : Repository
  installationId : Int
deriving DecidableEq, Repr

/-- The three accepted `pull_request` actions (webhook.ts line 107). -/
def prActions : List String := ["opened", "synchronize", "reopened"]

/-- The four event kinds of the `GitHubEvent['type']` union (webhook.ts
line 4). -/
def eventKinds : List String :=
  ["pull_request.opened", "pull_request.synchronize", "pull_request.reopened",
   "pull_request_review.submitted"]

/-- The three kinds routed to the pull-request handler (webhook.ts
lines 82–84). -/
def prEventKinds : List String :=
  ["pull_request.opened", "pull_request.synchronize", "pull_request.reopened"]

/-- `WebhookHandler.determineEventType` (webhook.ts lines 104–117). The
source's first `if` returns only when the action is one of the three accepted
pull-request actions and otherwise falls through to the review check; the
fallthrough is flattened here into one conjunction. -/
def determineEventType (payload : WebhookPayload) : Except String String :=
  if payload.pull_request.isSome ∧ strTruthy payload.action ∧
      (payload.action.getD "") ∈ prActions then
    .ok ("pull_request." ++ payload.action.getD "")
  else if payload.review ∧ payload.action = some "submitted" then
    .ok "pull_request_review.submitted"
  else
    .error ("Unsupported event type: " ++
      (if strTruthy payload.action then payload.action.getD "" else "unknown"))

/-- `WebhookHandler.parseEvent` (webhook.ts lines 54–74). -/
def parseEvent (payload : WebhookPayload) : Except String GitHubEvent :=
  if ¬ intTruthy (instId payload) then .error "Missing installation ID"
  else if ¬ (strTruthy (repoName payload) ∧ strTruthy (ownerLogin payload)) then
    .error "Missing repository information"
  else
    match determineEventType payload with
    | .error e => .error e
    | .ok t =>
      .ok { type := t, payload := payload,
            repository := { name := (repoName payload).getD "",
                            owner := (ownerLogin payload).getD "" },
            installationId := (instId payload).getD 0 }

/-- `WebhookHandler.routeEvent` (webhook.ts lines 80–94), with the registered
pull-request handler passed explicitly (index.ts always registers it before
routing). The Bool reports whether the handler was invoked; non-pull-request
kinds are ignored. -/
def routeEvent (pullRequestHandler : GitHubEvent → Except String Unit)
    (event : GitHubEvent) : Except String Unit × Bool :=
  if event.type ∈ prEventKinds then (pullRequestHandler event, true)
  else (.ok (), false)

/-- Concrete payload for the C9 counterexample: a negative installation id is
truthy in JS, so `parseEvent` accepts it. -/
def negativeIdPayload : WebhookPayload :=
  { installation := some { id := some (-1) },
    repository := some { name := some "repo",
                         owner := some { login := some "octo" } },
    action := some "opened",
    pull_request := some { number := 1, draft := false, body := none },
    review := false }

/-! ## Pull-request event handler (src/src/handlers/events/pull-request.ts)
and entry point (src/src/index.ts) -/

/-- One changed file as returned by `GitHubClient.getFiles`, restricted to
the fields the handler reads. -/
structure PRFile where
  filename : String
  changes : Nat
  patch : Option String
deriving DecidableEq, Repr

/-- The custom instructions returned by
`InstructionProcessor.fetchCustomInstructions`, restricted to the fields the
handler reads. -/
structure CustomInstructions where
  focusAreas : List String
  customRules : List String
  ignorePatterns : List String
deriving DecidableEq, Repr

/-- One entry of `CodeContext.files` (engine.ts lines 6–10). -/
structure CodeFile where
  path : String
  content : String
  diff : String
deriving DecidableEq, Repr

/-- `CodeContext` (engine.ts lines 5–13). -/
structure CodeContext where
  files : List CodeFile
  prDescription : String
  repository : String
deriving DecidableEq, Repr

/-- `defaultConfig.maxFileSize` (config/default.ts line 51). -/
def maxFileSize : Nat := 1024 * 1024

/-- `defaultConfig.maxFilesPerReview` (config/default.ts line 53). -/
def maxFilesPerReview : Nat := 50

/-- `defaultConfig.maxCommentsPerPR` (config/default.ts line 18). -/
def maxCommentsPerPR : Nat := 20

/-- `defaultConfig.ignoredPaths` (config/default.ts lines 4–12). -/
def ignoredPaths : List String :=
  ["node_modules/**", "dist/**", "build/**", "coverage/**", "**/*.min.js",
   "**/*.bundle.js", "vendor/**"]

/-- The observable calls made by `handlePullRequest`: the external
interactions, plus the error log emitted by its `catch` block. -/
inductive ExtCall
  | getConfig
  | authenticate
  | getFiles
  | fetchCustomInstructions
  | analyzeCode
  | createReview
  | logError (correlationId : String)
deriving DecidableEq, Repr

/-- The outcomes of the external collaborators consumed by
`handlePullRequest`, one field per call site, each allowed to fail
arbitrarily. `matchesPattern` (pull-request.ts lines 208–224) is passed
separately since it is a pure function backed by the external JS regular
expression engine. -/
structure PREnv where
  getConfig : Except String Unit
  authenticate : Except String Unit
  getFiles : Except String (List PRFile)
  fetchCustomInstructions : Except String (Option CustomInstructions)
  analyze : CodeContext → Except String ReviewAnalysis
  createReview : List Comment → Except String Unit

/-- The `try` block of `handlePullRequest` (pull-request.ts lines 30–190):
draft skip, config load, authentication, file fetch, size/ignore filtering,
file limit, custom-instruction fetch, AI analysis, comment generation with
the engine's default severity floor, ignore-pattern filtering, comment limit,
batched posting. Returns the block's outcome together with the ordered list
of calls issued. -/
def prTryBlock (env : PREnv) (matchesPattern : String → String → Bool)
    (repository : Repository) (pr : PullRequestInfo) :
    Except String Unit × List ExtCall :=
  if pr.draft then (.ok (), [])
  else
    match env.getConfig with
    | .error e => (.error e, [.getConfig])
    | .ok _ =>
    match env.authenticate with
    | .error e => (.error e, [.getConfig, .authenticate])
    | .ok _ =>
    match env.getFiles with
    | .error e => (.error e, [.getConfig, .authenticate, .getFiles])
    | .ok files =>
      let filesToReview := files.filter fun file =>
        decide (file.changes ≤ maxFileSize) &&
          !(ignoredPaths.any fun pattern => matchesPattern file.filename pattern)
      if filesToReview.isEmpty then
        (.ok (), [.getConfig, .authenticate, .getFiles])
      else
        let limitedFiles := filesToReview.take maxFilesPerReview
        match env.fetchCustomInstructions with
        | .error e =>
          (.error e, [.getConfig, .authenticate, .getFiles,
            .fetchCustomInstructions])
        | .ok customInstructions =>
          let reviewContext : CodeContext :=
            { files := limitedFiles.map fun file =>
                { path := file.filename, content := "",
                  diff := file.patch.getD "" },
              prDescription := pr.body.getD "",
              repository := repository.owner ++ "/" ++ repository.name }
          match env.analyze reviewContext with
          | .error e =>
            (.error e, [.getConfig, .authenticate, .getFiles,
              .fetchCustomInstructions, .analyzeCode])
          | .ok analysis =>
            let comments := generateComments defaultMinimumSeverity analysis
            let filteredComments :=
              match customInstructions with
              | some ci => comments.filter fun (comment : Comment) =>
                  !(ci.ignorePatterns.any fun pattern =>
                    matchesPattern comment.path pattern)
              | none => comments
            let finalComments := filteredComments.take maxCommentsPerPR
            if finalComments.length > 0 then
              match env.createReview finalComments with
              | .error e =>
                (.error e, [.getConfig, .authenticate, .getFiles,
                  .fetchCustomInstructions, .analyzeCode, .createReview])
              | .ok _ =>
                (.ok (), [.getConfig, .authenticate, .getFiles,
                  .fetchCustomInstructions, .analyzeCode, .createReview])
            else
              (.ok (), [.getConfig, .authenticate, .getFiles,
                .fetchCustomInstructions, .analyzeCode])

/-- `handlePullRequest` (pull-request.ts lines 17–200). The initial
`logger.info` dereferences `payload.pull_request.number` outside the `try`,
so an event without a `pull_request` object throws; otherwise the `try`
block runs and its `catch` logs the error with the correlation id and
swallows it. -/
def handlePullRequest (env : PREnv) (matchesPattern : String → String → Bool)
    (correlationId : String) (event : GitHubEvent) :
    Except String Unit × List ExtCall :=
  match event.payload.pull_request with
  | none =>
    (.error "TypeError: Cannot read properties of undefined (reading number)",
     [])
  | some pr =>
    match prTryBlock env matchesPattern event.repository pr with
    | (.ok _, calls) => (.ok (), calls)
    | (.error _, calls) => (.ok (), calls ++ [.logError correlationId])

/-- Observable stages of the entry point, in the order they can occur. -/
inductive Stage
  | validatedSignature
  | parsedEvent
  | routedEvent
deriving DecidableEq, Repr

/-- An inbound HTTP request as read by the entry point: parsed body, raw
body, and the two headers it consumes. -/
structure HttpRequest where
  body : Option WebhookPayload
  rawBody : Option String
  signatureHeader : Option String
  eventTypeHeader : Option String
deriving DecidableEq, Repr

/-- The external collaborators of the entry point: the configuration loader
(yielding the webhook secret), the HMAC primitive, and the registered
pull-request handler. -/
structure WebhookEnv where
  getConfig : Except String String
  hmacHex : String → String → String
  pullRequestHandler : GitHubEvent → Except String Unit

/-- The `reviewthor` HTTP responder (index.ts lines 12–91): status code,
response body, and the ordered trace of pipeline stages reached. Branches in
source order: missing body/rawBody → 400; falsy signature header → 401;
falsy event-type header → 400; non-pull-request event type → 200 "Event
ignored"; config load failure → 500 (caught); invalid signature → 401;
parse failure → 500 (caught); routing failure → 500 (caught); success →
200 "OK". -/
def reviewthor (env : WebhookEnv) (req : HttpRequest) :
    Nat × String × List Stage :=
  match req.body, req.rawBody with
  | some payload, some rawBody =>
    if ¬ strTruthy req.signatureHeader then (401, "Invalid signature", [])
    else if ¬ strTruthy req.eventTypeHeader then (400, "Missing event type", [])
    else if req.eventTypeHeader ≠ some "pull_request" ∧
            req.eventTypeHeader ≠ some "pull_request_review" then
      (200, "Event ignored", [])
    else
      match env.getConfig with
      | .error _ => (500, "Internal server error", [])
      | .ok secret =>
        if ¬ validateSignature env.hmacHex secret rawBody
            (req.signatureHeader.getD "") then
          (401, "Invalid signature", [.validatedSignature])
        else
          match parseEvent payload with
          | .error _ => (500, "Internal server error", [.validatedSignature])
          | .ok event =>
            match routeEvent env.pullRequestHandler event with
            | (.error _, _) =>
              (500, "Internal server error", [.validatedSignature, .parsedEvent])
            | (.ok _, _) =>
              (200, "OK", [.validatedSignature, .parsedEvent, .routedEvent])
  | _, _ => (400, "Missing request body", [])

/-- A payload carrying a pull request, used by concrete scenarios. -/
def prPayload : WebhookPayload :=
  { installation := some { id := some 42 },
    repository := some { name := some "repo",
                         owner := some { login := some "octo" } },
    action := some "opened",
    pull_request := some { number := 1, draft := false, body := none },
    review := false }

/-- A payload for a non-pull-request event, used by the C1 counterexample. -/
def pushPayload : WebhookPayload :=
  { installation := none, repository := none, action := some "created",
    pull_request := none, review := false }

/-- Concrete entry-point environment for the C1 scenarios. -/
def sampleWebhookEnv : WebhookEnv :=
  { getConfig := .ok "secret", hmacHex := fun _ _ => "d",
    pullRequestHandler := fun _ => .ok () }

/-- Concrete request for the C1 counterexample: signature header present but
invalid, event type `push`. -/
def invalidSigPushRequest : HttpRequest :=
  { body := some pushPayload, rawBody := some "rawbody",
    signatureHeader := some "sha256=bogus", eventTypeHeader := some "push" }

/-- Concrete request for the C1 witness: signature header present but
invalid, event type `pull_request`. -/
def invalidSigPrRequest : HttpRequest :=
  { body := some prPayload, rawBody := some "rawbody",
    signatureHeader := some "sha256=bogus",
    eventTypeHeader := some "pull_request" }

/-- The event `parseEvent` produces from `prPayload`, used by the C5 and C10
scenarios. -/
def prEvent : GitHubEvent :=
  { type := "pull_request.opened", payload := prPayload,
    repository := { name := "repo", owner := "octo" }, installationId := 42 }

/-- A handler environment whose review-service call fails, used by the C5
witness. -/
def failingPREnv : PREnv :=
  { getConfig := .ok (), authenticate := .ok (),
    getFiles := .ok [{ filename := "src/a.js", changes := 10,
                       patch := some "@@ -1 +1 @@" }],
    fetchCustomInstructions := .ok none,
    analyze := fun _ => .error "Invalid AI response format: Unknown error",
    createReview := fun _ => .ok () }

/-- A pattern matcher that matches nothing, used by concrete scenarios. -/
def noMatch : String → String → Bool := fun _ _ => false

/-- A draft pull-request payload, used by the C10 witness. -/
def draftPayload : WebhookPayload :=
  { installation := some { id := some 42 },
    repository := some { name := some "repo",
                         owner := some { login := some "octo" } },
    action := some "opened",
    pull_request := some { number := 2, draft := true, body := none },
    review := false }

/-- The event `parseEvent` produces from `draftPayload`. -/
def draftEvent : GitHubEvent :=
  { type := "pull_request.opened", payload := draftPayload,
    repository := { name := "repo", owner := "octo" }, installationId := 42 }

/-- The canonical once-each order of the calls `handlePullRequest` can make:
every execution's call trace is a sublist of this list, so no call is ever
retried. -/
def canonicalCalls (correlationId : String) : List ExtCall :=
  [.getConfig, .authenticate, .getFiles, .fetchCustomInstructions,
   .analyzeCode, .createReview, .logError correlationId]

end ReviewThor

namespace ReviewThor

/-- C3: severities are totally ordered with rank(error)=0 < rank(warning)=1 <
rank(info)=2; `generateComments` emits exactly the findings whose rank is at
most the floor's rank; the admitted set is monotonically non-decreasing as the
floor moves error→warning→info; and the default floor, when never set, is
`info`, which admits every finding. -/
theorem severity_filter_spec :
    (severityOrder .error < severityOrder .warning ∧
     severityOrder .warning < severityOrder .info) ∧
    (∀ (F : Severity) (analysis : ReviewAnalysis) (c : Comment),
      c ∈ generateComments F analysis ↔
        ∃ issue ∈ analysis.issues,
          severityOrder issue.severity ≤ severityOrder F ∧ c = mkComment issue) ∧
    (∀ (F F' : Severity) (analysis : ReviewAnalysis) (c : Comment),
      severityOrder F ≤ severityOrder F' →
      c ∈ generateComments F analysis → c ∈ generateComments F' analysis) ∧
    (defaultMinimumSeverity = .info ∧
     ∀ analysis : ReviewAnalysis,
       generateComments defaultMinimumSeverity analysis =
         analysis.issues.map mkComment) := by
  have hmem : ∀ (F : Severity) (analysis : ReviewAnalysis) (c : Comment),
      c ∈ generateComments F analysis ↔
        ∃ issue ∈ analysis.issues,
          severityOrder issue.severity ≤ severityOrder F ∧ c = mkComment issue := by
    intro F analysis c
    simp only [generateComments, List.mem_map, List.mem_filter,
      decide_eq_true_eq]
    constructor
    · rintro ⟨issue, ⟨hin, hle⟩, rfl⟩
      exact ⟨issue, hin, hle, rfl⟩
    · rintro ⟨issue, hin, hle, rfl⟩
      exact ⟨issue, ⟨hin, hle⟩, rfl⟩
  refine ⟨⟨by decide, by decide⟩, hmem, ?_, rfl, ?_⟩
  · intro F F' analysis c hFF hc
    rcases (hmem F analysis c).1 hc with ⟨issue, hin, hle, rfl⟩
    exact (hmem F' analysis (mkComment issue)).2 ⟨issue, hin, le_trans hle hFF, rfl⟩
  · intro analysis
    show List.map mkComment (List.filter _ analysis.issues) = _
    rw [List.filter_eq_self.2]
    intro issue _
    cases h : issue.severity <;> simp [severityOrder, defaultMinimumSeverity]

/-- Witness for C3: an error-severity finding admitted under the `error` floor
is still admitted under the `info` floor. -/
theorem severity_filter_spec_witness :
    mkComment sampleIssue ∈ generateComments .info sampleAnalysis :=
  severity_filter_spec.2.2.1 .error .info sampleAnalysis (mkComment sampleIssue)
    (by decide) (by decide)

/-- Helper: the per-issue validation loop fails (with one of its two
messages) whenever some finding in the list is invalid. -/
theorem validateIssues_fails (l : List RawIssue)
    (h : ∃ i ∈ l, badIssue i = true) :
    validateIssues l =
      .error "Each issue must have file, line, severity, message, and category" ∨
    validateIssues l =
      .error "Issue severity must be error, warning, or info" := by
  induction l with
  | nil => simp at h
  | cons i rest ih =>
    by_cases h1 : issueHasRequiredFields i = true
    · by_cases h2 : (i.severity.getD "") ∈ validSeverities
      · have hstep : validateIssues (i :: rest) = validateIssues rest := by
          simp [validateIssues, h1, h2]
        rw [hstep]
        apply ih
        rcases h with ⟨j, hj, hbad⟩
        rcases List.mem_cons.1 hj with rfl | hmem
        · exfalso
          simp [badIssue, h1, h2] at hbad
        · exact ⟨j, hmem, hbad⟩
      · right
        simp [validateIssues, h1, h2]
    · left
      simp [validateIssues, h1]

/-- C8: for every review-service response that parses and passes the
structural checks (object, issues array, non-empty summary, stats object), if
any single finding is missing one of the five required fields or carries a
severity outside {error, warning, info}, then `analyzeCode` fails the entire
response with a wrapped error — it never skips the bad finding and returns the
rest. -/
theorem analyzeCode_rejects_bad_finding
    (createMessageResult : Except String String)
    (parse : String → Except (Option String) (Option RawAnalysis))
    (content : String) (a : RawAnalysis) (issues : List RawIssue)
    (hmsg : createMessageResult = .ok content)
    (hparse : parse content = .ok (some a))
    (hissues : a.issues = some issues)
    (hsummary : strTruthy a.summary = true)
    (hstats : a.stats = true)
    (hbad : ∃ i ∈ issues, badIssue i = true) :
    (analyzeCode createMessageResult parse =
       .error ("Invalid AI response format: " ++
         "Each issue must have file, line, severity, message, and category") ∨
     analyzeCode createMessageResult parse =
       .error ("Invalid AI response format: " ++
         "Issue severity must be error, warning, or info")) ∧
    ∀ result, analyzeCode createMessageResult parse ≠ .ok result := by
  have hva : validateAnalysis (some a) = validateIssues issues := by
    simp [validateAnalysis, hissues, hsummary, hstats]
  rcases validateIssues_fails issues hbad with hv | hv
  · constructor
    · left
      simp [analyzeCode, hmsg, hparse, hva, hv]
    · intro result
      simp [analyzeCode, hmsg, hparse, hva, hv]
  · constructor
    · right
      simp [analyzeCode, hmsg, hparse, hva, hv]
    · intro result
      simp [analyzeCode, hmsg, hparse, hva, hv]

/-- Witness for C8: a concrete response whose second finding lacks a category
is rejected wholesale. -/
theorem analyzeCode_rejects_bad_finding_witness :
    analyzeCode (.ok "resp") (fun _ => .ok (some sampleRawAnalysis)) =
      .error ("Invalid AI response format: " ++
        "Each issue must have file, line, severity, message, and category") ∨
    analyzeCode (.ok "resp") (fun _ => .ok (some sampleRawAnalysis)) =
      .error ("Invalid AI response format: " ++
        "Issue severity must be error, warning, or info") :=
  (analyzeCode_rejects_bad_finding (.ok "resp")
    (fun _ => .ok (some sampleRawAnalysis)) "resp" sampleRawAnalysis
    ((sampleRawAnalysis.issues).getD [])
    rfl rfl (by decide) (by decide) (by decide) (by decide)).1

/-- Helper: the packing loop never returns an empty list on a non-empty
input: the first file is either kept or truncated in place. -/
theorem optimizeLoop_ne_nil (B cur : Nat) (files : List FileContext)
    (h : files ≠ []) : optimizeLoop B cur files ≠ [] := by
  cases files with
  | nil => exact absurd rfl h
  | cons file rest =>
    simp only [optimizeLoop]
    split <;> simp

/-- Helper: the packing loop returns either the whole input list, or the
first `n` files unchanged followed by exactly one truncated file. -/
theorem optimizeLoop_spec (B : Nat) (files : List FileContext) : ∀ cur : Nat,
    optimizeLoop B cur files = files ∨
    ∃ n f, files.get? n = some f ∧
      optimizeLoop B cur files = files.take n ++
        [truncateFile f ((B : Int) - ((cur : Int) +
          ((((files.take n).map estimateFileTokens).sum : Nat) : Int)))] := by
  induction files with
  | nil => intro cur; left; rfl
  | cons file rest ih =>
    intro cur
    by_cases hfit : cur + estimateFileTokens file ≤ B
    · have hstep : optimizeLoop B cur (file :: rest) =
          file :: optimizeLoop B (cur + estimateFileTokens file) rest := by
        simp [optimizeLoop, hfit]
      rcases ih (cur + estimateFileTokens file) with heq | ⟨n, f, hget, heq⟩
      · left
        rw [hstep, heq]
      · right
        refine ⟨n + 1, f, by simpa using hget, ?_⟩
        rw [hstep, heq]
        have harith : ((B : Int) - (((cur + estimateFileTokens file : Nat) : Int) +
            ((((rest.take n).map estimateFileTokens).sum : Nat) : Int))) =
            ((B : Int) - ((cur : Int) +
              (((((file :: rest).take (n + 1)).map estimateFileTokens).sum : Nat) : Int))) := by
          simp only [List.take_succ_cons, List.map_cons, List.sum_cons]
          push_cast
          ring
        rw [harith]
        simp [List.take_succ_cons]
    · right
      refine ⟨0, file, rfl, ?_⟩
      simp [optimizeLoop, hfit]

/-- C2 (amended): if the total estimate fits the budget, `pack` returns all
files unchanged with `truncated = false` and the true estimate; otherwise it
returns a prefix of the input in original order — non-empty whenever the
input file list is non-empty — with at most the last included file modified
(content dropped to empty; diff either kept or clipped with the truncation
marker appended), every file strictly before the truncation point
byte-identical to its input, `truncated = true`, and `tokenCount` reported as
exactly the budget. -/
theorem optimizeForTokenLimit_spec (B : Nat) (ctx : FullContext) :
    (estimateTokens ctx.files ctx.pr ≤ B →
      optimizeForTokenLimit B ctx =
        { files := ctx.files, pr := ctx.pr, truncated := false,
          tokenCount := estimateTokens ctx.files ctx.pr }) ∧
    (B < estimateTokens ctx.files ctx.pr →
      (optimizeForTokenLimit B ctx).truncated = true ∧
      (optimizeForTokenLimit B ctx).tokenCount = B ∧
      (optimizeForTokenLimit B ctx).pr = ctx.pr ∧
      (ctx.files ≠ [] → (optimizeForTokenLimit B ctx).files ≠ []) ∧
      ((optimizeForTokenLimit B ctx).files = ctx.files ∨
       ∃ n f rem, ctx.files.get? n = some f ∧
         (optimizeForTokenLimit B ctx).files =
           ctx.files.take n ++ [truncateFile f rem] ∧
         (truncateFile f rem).content = "" ∧
         ((truncateFile f rem).diff = f.diff ∨
          ∃ k, (truncateFile f rem).diff = f.diff.take k ++ truncationMarker))) := by
  constructor
  · intro hle
    simp [optimizeForTokenLimit, hle]
  · intro hgt
    have hnle : ¬ estimateTokens ctx.files ctx.pr ≤ B := by omega
    have hopt : optimizeForTokenLimit B ctx =
        { files := optimizeLoop B (estimateTokens [] ctx.pr) ctx.files,
          pr := ctx.pr, truncated := true, tokenCount := B } := by
      simp [optimizeForTokenLimit, hnle]
    rw [hopt]
    refine ⟨rfl, rfl, rfl, ?_, ?_⟩
    · intro hne
      exact optimizeLoop_ne_nil B (estimateTokens [] ctx.pr) ctx.files hne
    · rcases optimizeLoop_spec B ctx.files (estimateTokens [] ctx.pr) with
        heq | ⟨n, f, hget, heq⟩
      · left; exact heq
      · right
        refine ⟨n, f, _, hget, heq, ?_, ?_⟩
        · simp only [truncateFile]
          split <;> rfl
        · simp only [truncateFile]
          split
          · left; rfl
          · right; exact ⟨_, rfl⟩

/-- Counterexample to C2 as stated: with an empty input file list whose PR
metadata alone exceeds the budget (baseline 25 tokens, budget 24), the
truncated branch is taken and the returned file list is the empty prefix, so
the result is not a non-empty prefix. -/
theorem pack_empty_files_over_budget :
    24 < estimateTokens emptyFilesContext.files emptyFilesContext.pr ∧
    (optimizeForTokenLimit 24 emptyFilesContext).truncated = true ∧
    (optimizeForTokenLimit 24 emptyFilesContext).files = [] := by
  decide

/-- Witness for C2: a one-file context overflowing a budget of 30 tokens is
reported truncated with `tokenCount` saturated at the budget and a non-empty
file list. -/
theorem optimizeForTokenLimit_spec_witness :
    (optimizeForTokenLimit 30 oneFileContext).truncated = true ∧
    (optimizeForTokenLimit 30 oneFileContext).tokenCount = 30 ∧
    (optimizeForTokenLimit 30 oneFileContext).files ≠ [] := by
  have h := (optimizeForTokenLimit_spec 30 oneFileContext).2 (by decide)
  exact ⟨h.1, h.2.1, h.2.2.2.1 (by decide)⟩

/-- Helper: the batches concatenate back to the input comment list. -/
theorem makeBatches_join (cs : List Comment) : (makeBatches cs).flatten = cs := by
  induction cs using makeBatches.induct with
  | case1 => simp [makeBatches]
  | case2 c rest ih =>
    rw [makeBatches]
    simp only [List.flatten_cons, ih]
    exact List.take_append_drop BATCH_SIZE (c :: rest)

/-- Helper: every batch holds at most `BATCH_SIZE` comments and is
non-empty. -/
theorem makeBatches_mem (cs : List Comment) :
    ∀ b ∈ makeBatches cs, b.length ≤ BATCH_SIZE ∧ b ≠ [] := by
  induction cs using makeBatches.induct with
  | case1 => intro b hb; simp [makeBatches] at hb
  | case2 c rest ih =>
    intro b hb
    rw [makeBatches] at hb
    rcases List.mem_cons.1 hb with rfl | hmem
    · constructor
      · simp
      · simp [BATCH_SIZE]
    · exact ih b hmem

/-- Helper: the number of batches is `⌈n / BATCH_SIZE⌉`. -/
theorem makeBatches_length (cs : List Comment) :
    (makeBatches cs).length = (cs.length + (BATCH_SIZE - 1)) / BATCH_SIZE := by
  induction cs using makeBatches.induct with
  | case1 => simp [makeBatches, BATCH_SIZE]
  | case2 c rest ih =>
    rw [makeBatches]
    simp only [List.length_drop, List.length_cons, BATCH_SIZE] at ih ⊢
    omega

/-- Helper: the issued calls are an initial segment of the batch list. -/
theorem runBatches_take (call : List Comment → Except String Unit) :
    ∀ bs : List (List Comment), ∃ k, (runBatches call bs).1 = bs.take k := by
  intro bs
  induction bs with
  | nil => exact ⟨0, rfl⟩
  | cons b rest ih =>
    cases hc : call b with
    | ok u =>
      rcases ih with ⟨k, hk⟩
      refine ⟨k + 1, ?_⟩
      simp [runBatches, hc, hk]
    | error e =>
      refine ⟨1, ?_⟩
      simp [runBatches, hc]

/-- Helper: when the host accepts every call, every batch is issued, in
order, and the loop succeeds. -/
theorem runBatches_all_ok (call : List Comment → Except String Unit)
    (bs : List (List Comment)) (h : ∀ b ∈ bs, call b = .ok ()) :
    runBatches call bs = (bs, .ok ()) := by
  induction bs with
  | nil => rfl
  | cons b rest ih =>
    have hb : call b = .ok () := h b (List.mem_cons_self b rest)
    have hrest := ih fun b' hb' => h b' (List.mem_cons_of_mem b hb')
    simp [runBatches, hb, hrest]

/-- Helper: a failure on batch `k` (all earlier calls succeeding) issues
exactly the first `k + 1` calls and aborts the rest. -/
theorem runBatches_abort (call : List Comment → Except String Unit) :
    ∀ (bs : List (List Comment)) (k : Nat) (bfail : List Comment) (e : String),
    (∀ i b, i < k → bs.get? i = some b → call b = .ok ()) →
    bs.get? k = some bfail → call bfail = .error e →
    runBatches call bs = (bs.take (k + 1), .error e) := by
  intro bs
  induction bs with
  | nil => intro k bfail e _ hget; simp at hget
  | cons b rest ih =>
    intro k bfail e hok hget hfail
    cases k with
    | zero =>
      have hb : b = bfail := by simpa using hget
      subst hb
      simp [runBatches, hfail]
    | succ k' =>
      have hb : call b = .ok () := hok 0 b (Nat.succ_pos k') rfl
      have hrest := ih k' bfail e
        (fun i b' hi hg => hok (i + 1) b' (by omega) (by simpa using hg))
        (by simpa using hget) hfail
      simp [runBatches, hb, hrest]

/-- C4: `createReview` on an authenticated client makes no API call for an
empty comment list; a non-empty list of `n` comments is split into exactly
`⌈n/100⌉` contiguous batches of at most 100 comments each, concatenating back
to the input in original order; the calls are issued sequentially, one per
batch (each batch only after all earlier calls succeeded); if every call
succeeds, all batches are issued; a failure on batch `k` issues exactly the
first `k + 1` calls and aborts the remaining batches without revisiting
already-sent ones. -/
theorem createReview_batching_spec
    (call : List Comment → Except String Unit) (comments : List Comment) :
    (comments = [] → createReview true call comments = ([], .ok ())) ∧
    ((makeBatches comments).flatten = comments) ∧
    ((makeBatches comments).length =
      (comments.length + (BATCH_SIZE - 1)) / BATCH_SIZE) ∧
    (∀ b ∈ makeBatches comments, b.length ≤ BATCH_SIZE ∧ b ≠ []) ∧
    (∃ k, (createReview true call comments).1 = (makeBatches comments).take k) ∧
    (comments ≠ [] → (∀ b ∈ makeBatches comments, call b = .ok ()) →
      createReview true call comments = (makeBatches comments, .ok ())) ∧
    (∀ k bfail e, comments ≠ [] →
      (∀ i b, i < k → (makeBatches comments).get? i = some b → call b = .ok ()) →
      (makeBatches comments).get? k = some bfail → call bfail = .error e →
      createReview true call comments =
        ((makeBatches comments).take (k + 1), .error e)) := by
  refine ⟨?_, makeBatches_join comments, makeBatches_length comments,
    makeBatches_mem comments, ?_, ?_, ?_⟩
  · intro h
    subst h
    rfl
  · cases comments with
    | nil => exact ⟨0, rfl⟩
    | cons c rest =>
      have : createReview true call (c :: rest) =
          runBatches call (makeBatches (c :: rest)) := by
        simp [createReview]
      rw [this]
      exact runBatches_take call (makeBatches (c :: rest))
  · intro hne hok
    cases comments with
    | nil => exact absurd rfl hne
    | cons c rest =>
      have : createReview true call (c :: rest) =
          runBatches call (makeBatches (c :: rest)) := by
        simp [createReview]
      rw [this]
      exact runBatches_all_ok call _ hok
  · intro k bfail e hne hok hget hfail
    cases comments with
    | nil => exact absurd rfl hne
    | cons c rest =>
      have : createReview true call (c :: rest) =
          runBatches call (makeBatches (c :: rest)) := by
        simp [createReview]
      rw [this]
      exact runBatches_abort call _ k bfail e hok hget hfail

/-- Witness for C4: two comments form one batch; a host rejecting the first
call receives exactly that one call and the loop aborts with its error. -/
theorem createReview_batching_spec_witness :
    createReview true failingCall sampleComments =
      ((makeBatches sampleComments).take 1, .error "API Error") := by
  have hmb : makeBatches sampleComments = [sampleComments] := by
    unfold sampleComments
    rw [makeBatches]
    rw [List.take_of_length_le (by decide), List.drop_eq_nil_of_le (by decide)]
    simp [makeBatches]
  exact (createReview_batching_spec failingCall sampleComments).2.2.2.2.2.2
    0 sampleComments "API Error" (by decide)
    (fun i b hi _ => absurd hi (Nat.not_lt_zero i))
    (by rw [hmb]; rfl) rfl

/-- Helper: a truthy optional string is present and non-empty. -/
theorem strTruthy_getD {o : Option String} (h : strTruthy o = true) :
    o.getD "" ≠ "" := by
  cases o with
  | none => simp [strTruthy] at h
  | some s => simpa [strTruthy] using h

/-- Helper: a truthy optional number is present and non-zero. -/
theorem intTruthy_getD {o : Option Int} (h : intTruthy o = true) :
    o.getD 0 ≠ 0 := by
  cases o with
  | none => simp [intTruthy] at h
  | some n => simpa [intTruthy] using h

/-- Helper: `determineEventType` either returns one of the four event kinds
or fails with the unsupported-event message carrying the raw action (or
`"unknown"` when the action is falsy). -/
theorem determineEventType_cases (p : WebhookPayload) :
    (∃ t, determineEventType p = .ok t ∧ t ∈ eventKinds) ∨
    (∃ a, determineEventType p = .error ("Unsupported event type: " ++ a) ∧
      (p.action = some a ∨ a = "unknown")) := by
  have hraw : strTruthy p.action = true → p.action = some (p.action.getD "") := by
    intro h4
    cases ha : p.action with
    | none => rw [ha] at h4; simp [strTruthy] at h4
    | some s => simp
  unfold determineEventType
  by_cases h1 : p.pull_request.isSome ∧ strTruthy p.action ∧
      (p.action.getD "") ∈ prActions
  · rw [if_pos h1]
    left
    refine ⟨"pull_request." ++ p.action.getD "", rfl, ?_⟩
    have h2 := h1.2.2
    simp only [prActions, List.mem_cons, List.not_mem_nil, or_false] at h2
    rcases h2 with h | h | h <;> rw [h] <;> decide
  · rw [if_neg h1]
    by_cases h3 : p.review ∧ p.action = some "submitted"
    · rw [if_pos h3]
      left
      exact ⟨"pull_request_review.submitted", rfl, by decide⟩
    · rw [if_neg h3]
      right
      by_cases h4 : strTruthy p.action = true
      · rw [if_pos h4]
        exact ⟨p.action.getD "", rfl, Or.inl (hraw h4)⟩
      · rw [if_neg h4]
        exact ⟨"unknown", rfl, Or.inr rfl⟩

/-- C6: `parseEvent` is total over its domain — every payload either yields
an event of one of the four kinds, or raises the missing-installation /
missing-repository errors, or raises the unsupported-event error whose
message carries the raw action or `"unknown"`; being a function, it yields
exactly one of these outcomes. -/
theorem parseEvent_total (p : WebhookPayload) :
    (∃ e, parseEvent p = .ok e ∧ e.type ∈ eventKinds) ∨
    parseEvent p = .error "Missing installation ID" ∨
    parseEvent p = .error "Missing repository information" ∨
    (∃ a, parseEvent p = .error ("Unsupported event type: " ++ a) ∧
      (p.action = some a ∨ a = "unknown")) := by
  by_cases h1 : intTruthy (instId p) = true
  · by_cases h2 : strTruthy (repoName p) ∧ strTruthy (ownerLogin p)
    · rcases determineEventType_cases p with ⟨t, hdet, hmem⟩ | ⟨a, hdet, ha⟩
      · left
        refine ⟨{ type := t, payload := p,
                  repository := { name := (repoName p).getD "",
                                  owner := (ownerLogin p).getD "" },
                  installationId := (instId p).getD 0 }, ?_, hmem⟩
        simp [parseEvent, h1, h2, hdet]
      · right; right; right
        exact ⟨a, by simp [parseEvent, h1, h2, hdet], ha⟩
    · right; right; left
      simp [parseEvent, h1, h2]
  · right; left
    simp [parseEvent, h1]

/-- C9 (amended): every event produced by `parseEvent` has one of the four
accepted kinds, non-empty repository owner and name, and a *non-zero*
installation id (the source's truthiness check `!payload.installation?.id`
only rejects an absent or zero id, so a negative id passes). -/
theorem parseEvent_event_invariants (p : WebhookPayload) (e : GitHubEvent)
    (h : parseEvent p = .ok e) :
    e.type ∈ eventKinds ∧ e.repository.name ≠ "" ∧
    e.repository.owner ≠ "" ∧ e.installationId ≠ 0 := by
  by_cases h1 : intTruthy (instId p) = true
  · by_cases h2 : strTruthy (repoName p) ∧ strTruthy (ownerLogin p)
    · cases hdet : determineEventType p with
      | error msg => simp [parseEvent, h1, h2, hdet] at h
      | ok t =>
        have h' : parseEvent p =
            Except.ok { type := t, payload := p,
                        repository := { name := (repoName p).getD "",
                                        owner := (ownerLogin p).getD "" },
                        installationId := (instId p).getD 0 } := by
          simp [parseEvent, h1, h2, hdet]
        rw [h] at h'
        injection h' with he
        subst he
        refine ⟨?_, strTruthy_getD h2.1, strTruthy_getD h2.2, intTruthy_getD h1⟩
        rcases determineEventType_cases p with ⟨t', hdet', hmem⟩ | ⟨a, hdet', _⟩
        · rw [hdet] at hdet'
          cases hdet'
          exact hmem
        · rw [hdet] at hdet'
          cases hdet'
    · simp [parseEvent, h1, h2] at h
  · simp [parseEvent, h1] at h

/-- Counterexample to C9 as stated: a payload whose installation id is `-1`
(truthy in JS) is accepted by `parseEvent`, producing an event whose
`installationId` is not strictly positive. -/
theorem parseEvent_negative_installation_id :
    parseEvent negativeIdPayload =
      .ok { type := "pull_request.opened", payload := negativeIdPayload,
            repository := { name := "repo", owner := "octo" },
            installationId := -1 } ∧
    ¬ ((0 : Int) < -1) := ⟨by rfl, by decide⟩

/-- Witness for C9: the event produced from a well-formed opened-PR payload
satisfies the (amended) invariants. -/
theorem parseEvent_event_invariants_witness :
    prEvent.type ∈ eventKinds ∧ prEvent.repository.name ≠ "" ∧
    prEvent.repository.owner ≠ "" ∧ prEvent.installationId ≠ 0 :=
  parseEvent_event_invariants prPayload prEvent (by rfl)

/-- C7: `validateSignature` fails closed — it is a total boolean function of
its inputs (hence never throws and has no side effects), returns `false` for
an empty signature header and for a header not prefixed with `sha256=`, and
returns `true` only when the header equals the expected
`sha256=`-prefixed HMAC hex digest. -/
theorem validateSignature_fails_closed (hmacHex : String → String → String)
    (secret payload signature : String) :
    (signature = "" →
      validateSignature hmacHex secret payload signature = false) ∧
    (jsStartsWith signature "sha256=" = false →
      validateSignature hmacHex secret payload signature = false) ∧
    (validateSignature hmacHex secret payload signature = true →
      signature = "sha256=" ++ hmacHex secret payload) := by
  refine ⟨?_, ?_, ?_⟩
  · intro h
    simp [validateSignature, h]
  · intro h
    simp [validateSignature, h]
  · intro h
    by_cases h1 : signature = "" ∨ jsStartsWith signature "sha256=" = false
    · simp [validateSignature, h1] at h
    · simp [validateSignature, h1, timingSafeEqual] at h
      exact h.2

/-- Witness for C7: a header carrying the wrong algorithm tag is rejected. -/
theorem validateSignature_fails_closed_witness :
    validateSignature (fun _ _ => "d") "secret" "payload" "md5=abc" = false :=
  (validateSignature_fails_closed (fun _ _ => "d") "secret" "payload"
    "md5=abc").2.1 (by decide)

/-- Helper: the `try` block's outcome is swallowed, so `handlePullRequest`
returns `ok` for every event carrying a `pull_request` object. -/
theorem handlePullRequest_ok (env : PREnv) (m : String → String → Bool)
    (cid : String) (event : GitHubEvent) (pr : PullRequestInfo)
    (hpr : event.payload.pull_request = some pr) :
    (handlePullRequest env m cid event).1 = .ok () := by
  unfold handlePullRequest
  rw [hpr]
  dsimp only
  rcases htb : prTryBlock env m event.repository pr with ⟨r, calls⟩
  cases r <;> rfl

/-- Helper: the `try` block's call trace is a sublist of the canonical
once-each external-call order. -/
theorem prTryBlock_trace (env : PREnv) (m : String → String → Bool)
    (repo : Repository) (pr : PullRequestInfo) :
    (prTryBlock env m repo pr).2.Sublist
      [.getConfig, .authenticate, .getFiles, .fetchCustomInstructions,
       .analyzeCode, .createReview] := by
  unfold prTryBlock
  dsimp only
  repeat' split
  all_goals (dsimp only; decide)

/-- Helper: `handlePullRequest`'s full call trace (log line included) is a
sublist of `canonicalCalls`, so no call is issued twice. -/
theorem handlePullRequest_trace (env : PREnv) (m : String → String → Bool)
    (cid : String) (event : GitHubEvent) :
    (handlePullRequest env m cid event).2.Sublist (canonicalCalls cid) := by
  unfold handlePullRequest
  cases hpr : event.payload.pull_request with
  | none => simp
  | some pr =>
    dsimp only
    rcases htb : prTryBlock env m event.repository pr with ⟨r, calls⟩
    have hcalls : calls.Sublist
        [ExtCall.getConfig, .authenticate, .getFiles, .fetchCustomInstructions,
         .analyzeCode, .createReview] := by
      have h := prTryBlock_trace env m event.repository pr
      rw [htb] at h
      exact h
    cases r with
    | ok u =>
      exact hcalls.trans (List.sublist_append_left _ [ExtCall.logError cid])
    | error e =>
      exact hcalls.append (List.Sublist.refl [ExtCall.logError cid])

/-- Helper: when the `try` block fails, the `catch` logs the error with the
correlation identifier. -/
theorem handlePullRequest_logs (env : PREnv) (m : String → String → Bool)
    (cid : String) (event : GitHubEvent) (pr : PullRequestInfo)
    (e : String) (calls : List ExtCall)
    (hpr : event.payload.pull_request = some pr)
    (htb : prTryBlock env m event.repository pr = (.error e, calls)) :
    ExtCall.logError cid ∈ (handlePullRequest env m cid event).2 := by
  unfold handlePullRequest
  rw [hpr]
  dsimp only
  rw [htb]
  simp

/-- Helper: `determineEventType` yields a pull-request kind only when the
payload carries a `pull_request` object. -/
theorem determineEventType_pr_kind (p : WebhookPayload) (t : String)
    (h : determineEventType p = .ok t) (ht : t ∈ prEventKinds) :
    p.pull_request.isSome = true := by
  unfold determineEventType at h
  by_cases h1 : p.pull_request.isSome ∧ strTruthy p.action ∧
      (p.action.getD "") ∈ prActions
  · exact h1.1
  · rw [if_neg h1] at h
    by_cases h3 : p.review ∧ p.action = some "submitted"
    · rw [if_pos h3] at h
      injection h with ht'
      rw [← ht'] at ht
      exact absurd ht (by decide)
    · rw [if_neg h3] at h
      exact Except.noConfusion h

/-- Helper: an event of a routed pull-request kind carries a `pull_request`
object in its payload. -/
theorem parseEvent_pr_kind (p : WebhookPayload) (e : GitHubEvent)
    (h : parseEvent p = .ok e) (ht : e.type ∈ prEventKinds) :
    ∃ pr, e.payload.pull_request = some pr := by
  by_cases h1 : intTruthy (instId p) = true
  · by_cases h2 : strTruthy (repoName p) ∧ strTruthy (ownerLogin p)
    · cases hdet : determineEventType p with
      | error msg => simp [parseEvent, h1, h2, hdet] at h
      | ok t =>
        have h' : parseEvent p =
            Except.ok { type := t, payload := p,
                        repository := { name := (repoName p).getD "",
                                        owner := (ownerLogin p).getD "" },
                        installationId := (instId p).getD 0 } := by
          simp [parseEvent, h1, h2, hdet]
        rw [h] at h'
        injection h' with he
        subst he
        have hsome := determineEventType_pr_kind p t hdet ht
        rcases Option.isSome_iff_exists.1 hsome with ⟨pr, hpr⟩
        exact ⟨pr, hpr⟩
    · simp [parseEvent, h1, h2] at h
  · simp [parseEvent, h1] at h

/-- Helper: the entry point answers 200 "OK" whenever the request passes all
boundary checks, the signature is valid, the payload parses, and the
registered handler returns without error on events carrying a pull request. -/
theorem reviewthor_ok (wenv : WebhookEnv) (req : HttpRequest)
    (payload : WebhookPayload) (rawBody secret : String) (event : GitHubEvent)
    (hb : req.body = some payload) (hrb : req.rawBody = some rawBody)
    (hsig : strTruthy req.signatureHeader = true)
    (het : req.eventTypeHeader = some "pull_request" ∨
           req.eventTypeHeader = some "pull_request_review")
    (hcfg : wenv.getConfig = .ok secret)
    (hval : validateSignature wenv.hmacHex secret rawBody
      (req.signatureHeader.getD "") = true)
    (hpe : parseEvent payload = .ok event)
    (hhandler : ∀ evt pr, evt.payload.pull_request = some pr →
      wenv.pullRequestHandler evt = .ok ()) :
    reviewthor wenv req =
      (200, "OK", [.validatedSignature, .parsedEvent, .routedEvent]) := by
  have hetT : strTruthy req.eventTypeHeader = true := by
    rcases het with h | h <;> rw [h] <;> decide
  have hetne : ¬(req.eventTypeHeader ≠ some "pull_request" ∧
      req.eventTypeHeader ≠ some "pull_request_review") := by
    rcases het with h | h <;> simp [h]
  unfold reviewthor
  rw [hb, hrb]
  dsimp only
  rw [if_neg (by simp [hsig]), if_neg (by simp [hetT]), if_neg hetne, hcfg]
  dsimp only
  rw [if_neg (by simp [hval]), hpe]
  dsimp only
  unfold routeEvent
  by_cases hk : event.type ∈ prEventKinds
  · rw [if_pos hk]
    rcases parseEvent_pr_kind payload event hpe hk with ⟨pr, hpr⟩
    rw [hhandler event pr hpr]
  · rw [if_neg hk]

/-- C5: every error raised inside pull-request processing is swallowed:
`handlePullRequest` returns `ok` (never propagates an exception) for every
event carrying a pull request and every outcome of the external calls; its
call trace is a sublist of the canonical once-each order (no retry); a
failing `try` block is logged with the correlation identifier; and the
webhook responder still answers 200 "OK" for an accepted pull-request
request routed to this handler, whatever the downstream failures. -/
theorem handlePullRequest_swallows_errors (env : PREnv)
    (m : String → String → Bool) (cid : String) (event : GitHubEvent)
    (pr : PullRequestInfo) (hpr : event.payload.pull_request = some pr) :
    (handlePullRequest env m cid event).1 = .ok () ∧
    (handlePullRequest env m cid event).2.Sublist (canonicalCalls cid) ∧
    (∀ e calls, prTryBlock env m event.repository pr = (.error e, calls) →
      ExtCall.logError cid ∈ (handlePullRequest env m cid event).2) ∧
    (∀ (wenv : WebhookEnv) (req : HttpRequest) (payload : WebhookPayload)
       (rawBody secret : String) (routedEvent : GitHubEvent),
      req.body = some payload → req.rawBody = some rawBody →
      strTruthy req.signatureHeader = true →
      (req.eventTypeHeader = some "pull_request" ∨
       req.eventTypeHeader = some "pull_request_review") →
      wenv.getConfig = .ok secret →
      validateSignature wenv.hmacHex secret rawBody
        (req.signatureHeader.getD "") = true →
      parseEvent payload = .ok routedEvent →
      wenv.pullRequestHandler =
        (fun evt => (handlePullRequest env m cid evt).1) →
      reviewthor wenv req =
        (200, "OK", [.validatedSignature, .parsedEvent, .routedEvent])) := by
  refine ⟨handlePullRequest_ok env m cid event pr hpr,
    handlePullRequest_trace env m cid event, ?_, ?_⟩
  · intro e calls htb
    exact handlePullRequest_logs env m cid event pr e calls hpr htb
  · intro wenv req payload rawBody secret routedEvent hb hrb hsig het hcfg
      hval hpe hhandler
    refine reviewthor_ok wenv req payload rawBody secret routedEvent hb hrb
      hsig het hcfg hval hpe ?_
    intro evt pr' hpr'
    rw [hhandler]
    exact handlePullRequest_ok env m cid evt pr' hpr'

/-- Witness for C5: with a review-service call that fails, the handler still
returns `ok` and logs the error with the correlation identifier. -/
theorem handlePullRequest_swallows_errors_witness :
    (handlePullRequest failingPREnv noMatch "cid-1" prEvent).1 = .ok () ∧
    ExtCall.logError "cid-1" ∈
      (handlePullRequest failingPREnv noMatch "cid-1" prEvent).2 := by
  have h := handlePullRequest_swallows_errors failingPREnv noMatch "cid-1"
    prEvent { number := 1, draft := false, body := none } rfl
  exact ⟨h.1, h.2.2.1 "Invalid AI response format: Unknown error"
    [.getConfig, .authenticate, .getFiles, .fetchCustomInstructions,
     .analyzeCode] rfl⟩

/-- C10: a draft pull request is skipped right after the draft check: the
handler returns `ok` with an empty call trace — no config load, no
authentication, no file fetch, no custom-instruction fetch, no
review-service request, and no comment posted. -/
theorem draft_pr_skipped (env : PREnv) (m : String → String → Bool)
    (cid : String) (event : GitHubEvent) (pr : PullRequestInfo)
    (hpr : event.payload.pull_request = some pr) (hdraft : pr.draft = true) :
    handlePullRequest env m cid event = (.ok (), []) := by
  unfold handlePullRequest
  rw [hpr]
  dsimp only
  have htb : prTryBlock env m event.repository pr = (.ok (), []) := by
    unfold prTryBlock
    simp [hdraft]
  rw [htb]

/-- Witness for C10: a concrete draft PR event makes no external call. -/
theorem draft_pr_skipped_witness :
    handlePullRequest failingPREnv noMatch "cid-2" draftEvent = (.ok (), []) :=
  draft_pr_skipped failingPREnv noMatch "cid-2" draftEvent
    { number := 2, draft := true, body := none } rfl rfl

/-- Counterexample to C1 as stated: a request whose signature header is
present but invalid, carrying a non-pull-request event type, is answered
200 "Event ignored" before any signature verification. -/
theorem event_ignored_bypasses_signature_check :
    reviewthor sampleWebhookEnv invalidSigPushRequest =
      (200, "Event ignored", []) ∧
    validateSignature sampleWebhookEnv.hmacHex "secret" "rawbody"
      "sha256=bogus" = false :=
  ⟨rfl, rfl⟩

/-- C1 (amended): on every path, signature verification precedes event
classification (the stage trace is always a prefix of
verification→classification→routing); and for a request with body present
and a pull-request event type, a missing (falsy) signature header is
answered 401 before verification, while a present-but-invalid signature
(config load succeeding) is answered 401 right after verification with no
classification and no routing. Requests with a non-pull-request event-type
header are answered 200 "Event ignored" before signature verification (see
the counterexample). -/
theorem signature_check_order (env : WebhookEnv) (req : HttpRequest) :
    ((reviewthor env req).2.2 = [] ∨
     (reviewthor env req).2.2 = [.validatedSignature] ∨
     (reviewthor env req).2.2 = [.validatedSignature, .parsedEvent] ∨
     (reviewthor env req).2.2 =
       [.validatedSignature, .parsedEvent, .routedEvent]) ∧
    (∀ payload rawBody, req.body = some payload → req.rawBody = some rawBody →
      (req.eventTypeHeader = some "pull_request" ∨
       req.eventTypeHeader = some "pull_request_review") →
      ((strTruthy req.signatureHeader = false →
         reviewthor env req = (401, "Invalid signature", [])) ∧
       (∀ secret, env.getConfig = .ok secret →
         strTruthy req.signatureHeader = true →
         validateSignature env.hmacHex secret rawBody
           (req.signatureHeader.getD "") = false →
         reviewthor env req =
           (401, "Invalid signature", [.validatedSignature])))) := by
  constructor
  · unfold reviewthor
    rcases req.body with _ | payload <;> rcases req.rawBody with _ | rawBody
    · simp
    · simp
    · simp
    · repeat' split
      all_goals simp
  · intro payload rawBody hb hrb het
    have hetT : strTruthy req.eventTypeHeader = true := by
      rcases het with h | h <;> rw [h] <;> decide
    have hetne : ¬(req.eventTypeHeader ≠ some "pull_request" ∧
        req.eventTypeHeader ≠ some "pull_request_review") := by
      rcases het with h | h <;> simp [h]
    constructor
    · intro hsigF
      unfold reviewthor
      rw [hb, hrb]
      dsimp only
      rw [if_pos (by simp [hsigF])]
    · intro secret hcfg hsigT hvalF
      unfold reviewthor
      rw [hb, hrb]
      dsimp only
      rw [if_neg (by simp [hsigT]), if_neg (by simp [hetT]), if_neg hetne,
        hcfg]
      dsimp only
      rw [if_pos (by simp [hvalF])]

/-- Witness for C1: a pull-request-typed request with a present-but-invalid
signature is answered 401 right after verification. -/
theorem signature_check_order_witness :
    reviewthor sampleWebhookEnv invalidSigPrRequest =
      (401, "Invalid signature", [.validatedSignature]) :=
  ((signature_check_order sampleWebhookEnv invalidSigPrRequest).2
    prPayload "rawbody" rfl rfl (Or.inl rfl)).2 "secret" rfl (by decide)
    (by decide)

end ReviewThor
